import Mathlib

/-!
Verification of the lzma-cpp LZMA2 decoder.

This file gives a shallow embedding of the decoder sources
(`include/lzma-cpp/details/LzmaDecoderCore.hpp` and
`include/lzma-cpp/Lzma2Decoder.hpp`) as executable Lean functions, and
proves or refutes the specification claims about them.

Machine integers are modelled as `Nat` with explicit reductions modulo
`2 ^ 32` (`wrap32`, for `UInt32` / `unsigned` values) and modulo `2 ^ 64`
(`wrap64`, for `size_t` values) wherever the C++ arithmetic can wrap.
Bounded C++ loops (8-bit literal trees, length trees, direct-bit loops)
are translated as structural recursion on the number of iterations; the
unbounded outer loops take an explicit fuel argument and report fuel
exhaustion as a distinguished outcome.
-/

namespace LzmaCpp

def UINT32_LIMIT : Nat := 4294967296

def SIZE_LIMIT : Nat := 18446744073709551616

/-- Reduction modulo `2 ^ 32`: models storing into a `UInt32`. -/
def wrap32 (n : Nat) : Nat := n % UINT32_LIMIT

/-- Reduction modulo `2 ^ 64`: models storing into a `size_t`. -/
def wrap64 (n : Nat) : Nat := n % SIZE_LIMIT

/-- Wrapping 32-bit subtraction `a - b` as computed on `UInt32` operands. -/
def sub32 (a b : Nat) : Nat := wrap32 (a + (UINT32_LIMIT - wrap32 b))

/-- Wrapping 64-bit subtraction `a - b` as computed on `size_t` operands. -/
def sub64 (a b : Nat) : Nat := wrap64 (a + (SIZE_LIMIT - wrap64 b))

/-! Constants of `DecoderCore` (LzmaDecoderCore.hpp). -/

def kNumTopBits : Nat := 24
def kTopValue : Nat := 2 ^ kNumTopBits
def kNumBitModelTotalBits : Nat := 11
def kBitModelTotal : Nat := 2 ^ kNumBitModelTotalBits
def kNumMoveBits : Nat := 5
def kNumPosBitsMax : Nat := 4
def kNumPosStatesMax : Nat := 2 ^ kNumPosBitsMax
def kLenNumLowBits : Nat := 3
def kLenNumLowSymbols : Nat := 2 ^ kLenNumLowBits
def kLenNumMidBits : Nat := 3
def kLenNumMidSymbols : Nat := 2 ^ kLenNumMidBits
def kLenNumHighBits : Nat := 8
def kLenNumHighSymbols : Nat := 2 ^ kLenNumHighBits
def LenChoice : Nat := 0
def LenChoice2 : Nat := LenChoice + 1
def LenLow : Nat := LenChoice2 + 1
def LenMid : Nat := LenLow + kNumPosStatesMax * kLenNumLowSymbols
def LenHigh : Nat := LenMid + kNumPosStatesMax * kLenNumMidSymbols
def kNumLenProbs : Nat := LenHigh + kLenNumHighSymbols
def kNumStates : Nat := 12
def kNumLitStates : Nat := 7
def kStartPosModelIndex : Nat := 4
def kEndPosModelIndex : Nat := 14
def kNumFullDistances : Nat := 2 ^ (kEndPosModelIndex / 2)
def kNumPosSlotBits : Nat := 6
def kNumLenToPosStates : Nat := 4
def kNumAlignBits : Nat := 4
def kAlignTableSize : Nat := 2 ^ kNumAlignBits
def kMatchMinLen : Nat := 2
def kMatchSpecLenStart : Nat :=
  kMatchMinLen + kLenNumLowSymbols + kLenNumMidSymbols + kLenNumHighSymbols

def IsMatch : Nat := 0
def IsRep : Nat := IsMatch + kNumStates * kNumPosStatesMax
def IsRepG0 : Nat := IsRep + kNumStates
def IsRepG1 : Nat := IsRepG0 + kNumStates
def IsRepG2 : Nat := IsRepG1 + kNumStates
def IsRep0Long : Nat := IsRepG2 + kNumStates
def PosSlot : Nat := IsRep0Long + kNumStates * kNumPosStatesMax
def SpecPos : Nat := PosSlot + kNumLenToPosStates * 2 ^ kNumPosSlotBits
def Align : Nat := SpecPos + kNumFullDistances - kEndPosModelIndex
def LenCoder : Nat := Align + kAlignTableSize
def RepLenCoder : Nat := LenCoder + kNumLenProbs
def Literal : Nat := RepLenCoder + kNumLenProbs

def LZMA_LIT_SIZE : Nat := 768
def LZMA_REQUIRED_INPUT_MAX : Nat := 20
def RC_INIT_SIZE : Nat := 5

/-- `DecoderCore::calcProbSize`: probability-array length for `lc + lp`. -/
def calcProbSize (lcPlusLp : Nat) : Nat := 1846 + LZMA_LIT_SIZE * 2 ^ lcPlusLp

/-! Range-coder primitives, from the `NORMALIZE` / `isBit0` / `UPDATE_0` /
`UPDATE_1` lambdas of `DecoderCore::DecodeReal`. -/

/-- `bound = (range >> kNumBitModelTotalBits) * ttt`, in `UInt32`. -/
def rcBound (range ttt : Nat) : Nat :=
  wrap32 ((range / 2 ^ kNumBitModelTotalBits) * ttt)

/-- `UPDATE_0` on the probability counter:
`*x = ttt + ((kBitModelTotal - ttt) >> kNumMoveBits)`, in `UInt32`. -/
def probUp (ttt : Nat) : Nat :=
  wrap32 (ttt + (sub32 kBitModelTotal ttt) / 2 ^ kNumMoveBits)

/-- `UPDATE_1` on the probability counter:
`*x = ttt - (ttt >> kNumMoveBits)`, in `UInt32`. -/
def probDown (ttt : Nat) : Nat := sub32 ttt (ttt / 2 ^ kNumMoveBits)

/-- One range-coder bit decode after normalization, fusing `isBit0` with
`UPDATE_0` / `UPDATE_1` from `DecoderCore::DecodeReal`: given the
normalized `(range, code)` pair and the probability counter, returns the
decoded bit together with the new `range`, `code` and probability. -/
def decodeBit (range code prob : Nat) : Bool × Nat × Nat × Nat :=
  let bound := rcBound range prob
  if code < bound then
    (false, bound, code, probUp prob)
  else
    (true, sub32 range bound, sub32 code bound, probDown prob)

/-- The claim C5 wording of `decodeBit`, with the arithmetic written out
on unbounded naturals exactly as the specification states it. -/
def decodeBitSpec (range code prob : Nat) : Bool × Nat × Nat × Nat :=
  let bound := (range >>> 11) * prob
  if code < bound then
    (false, bound, code, prob + ((2048 - prob) >>> 5))
  else
    (true, range - bound, code - bound, prob - (prob >>> 5))

/-- The literal-branch meta-state update of `DecoderCore::DecodeReal`:
`state -= (state < 4) ? state : 3` when `state < kNumLitStates`, and
`state -= (state < 10) ? 3 : 6` otherwise. -/
def litNextState (st : Nat) : Nat :=
  if st < kNumLitStates then st - (if st < 4 then st else 3)
  else st - (if st < 10 then 3 else 6)

/-- The back-reference distance validation of `DecoderCore::DecodeReal`
(lines 711-719): the decoded distance of a simple match is valid when it
is below `processedPos` while `checkDicSize == 0`, and below
`checkDicSize` afterwards. -/
def distanceIsValid (checkDicSize processedPos distance : Nat) : Bool :=
  if checkDicSize = 0 then distance < processedPos else distance < checkDicSize

/-- The rep-into-empty-dictionary check of `DecoderCore::DecodeReal`
(lines 553-554): a rep operation with `checkDicSize == 0` and
`processedPos == 0` raises `BadStream`. -/
def repIntoEmptyDic (checkDicSize processedPos : Nat) : Bool :=
  checkDicSize = 0 && processedPos = 0

/-- `Decoder2Base::dicSizeFromProp`: `(2ul | (prop & 1)) << (prop / 2 + 11)`,
truncated to `unsigned` on return. -/
def dicSizeFromProp (prop : Nat) : Nat :=
  wrap32 ((2 ||| (prop &&& 1)) <<< (prop / 2 + 11))

/-- The dictionary-size part of the `Decoder2` constructor: fails (throws
`std::invalid_argument`) for `prop > 40`, yields `0xFFFFFFFF` for
`prop == 40` and `dicSizeFromProp prop` below. -/
def decoder2DicSize (prop : Nat) : Option Nat :=
  if prop > 40 then none
  else some (if prop = 40 then 0xFFFFFFFF else dicSizeFromProp prop)

/-! Data model: `Properties`, `DictView` and the `DecoderCore` state
(member variables of `lzma::details::DecoderCore`).  The dictionary
memory is a `List Nat` of byte values; the input buffer pointers `buf`
and `bufLimit` are modelled as indices into the byte list currently
serving as the input view. -/

inductive Status where
  | NotSpecified
  | FinishedWithMark
  | NotFinished
  | NeedsMoreInput
  | MaybeFinishedWithoutMark
deriving DecidableEq

inductive FinishMode where
  | Any
  | End
deriving DecidableEq

structure Properties where
  lc : Nat
  lp : Nat
  pb : Nat
  dicSize : Nat
deriving DecidableEq

structure DictView where
  mem : List Nat
  size : Nat
  pos : Nat
deriving DecidableEq

structure DecoderCore where
  m_dic : DictView
  m_properties : Properties
  m_probs : List Nat
  buf : Nat
  m_range : Nat
  m_code : Nat
  processedPos : Nat
  checkDicSize : Nat
  state : Nat
  rep0 : Nat
  rep1 : Nat
  rep2 : Nat
  rep3 : Nat
  remainLen : Nat
  needFlush : Bool
  needInitState : Bool
  tempBuf : List Nat
deriving DecidableEq

/-- Reading a byte through a pointer: `input` is the byte list the
pointer indexes, out-of-range reads yield 0. -/
def byteAt (input : List Nat) (i : Nat) : Nat := input.getD i 0

/-- The back-reference index expression
`(dicPos - rep0) + ((dicPos < rep0) ? dicBufSize : 0)` computed in
`size_t` arithmetic. -/
def dicBackIdx (dicPos rep0 size : Nat) : Nat :=
  wrap64 (dicPos + (if dicPos < rep0 then size else 0) + (SIZE_LIMIT - wrap64 rep0))

/-- The `NORMALIZE` lambda of `DecodeReal`: when `range < kTopValue`,
shift `range` left by 8 and pull the next input byte into `code`. -/
def coreNormalize (input : List Nat) (d : DecoderCore) : DecoderCore :=
  if d.m_range < kTopValue then
    { d with m_range := wrap32 (d.m_range * 256),
             m_code := wrap32 (d.m_code * 256 + byteAt input d.buf),
             buf := d.buf + 1 }
  else d

/-- A full probability-coded bit read inside `DecodeReal`: fetch the
counter, `NORMALIZE`, decode via `decodeBit` and store the updated
counter back. -/
def coreBit (input : List Nat) (idx : Nat) (d : DecoderCore) : Bool × DecoderCore :=
  let ttt := d.m_probs.getD idx 0
  let d1 := coreNormalize input d
  match decodeBit d1.m_range d1.m_code ttt with
  | (b, r, c, p) =>
    (b, { d1 with m_range := r, m_code := c, m_probs := d1.m_probs.set idx p })

/-- `TREE_GET_BIT(probs, i)`, i.e. `GET_BIT(probs + i, i)`. -/
def treeGetBit (input : List Nat) (base i : Nat) (d : DecoderCore) : Nat × DecoderCore :=
  match coreBit input (base + i) d with
  | (false, d) => (2 * i, d)
  | (true, d) => (2 * i + 1, d)

/-- The body of `TREE_DECODE`: `n` iterations of `TREE_GET_BIT` starting
from index `i`.  The C++ loop `do TREE_GET_BIT while (i < limit)` with
`limit = 2 ^ n` and `i` starting at 1 runs exactly `n` times, since each
iteration moves `i` from `[2 ^ k, 2 ^ (k + 1))` to `[2 ^ (k + 1), 2 ^ (k + 2))`. -/
def treeDecodeAux (input : List Nat) (base : Nat) : Nat → Nat → DecoderCore → Nat × DecoderCore
  | 0, i, d => (i, d)
  | n + 1, i, d =>
    match treeGetBit input base i d with
    | (i, d) => treeDecodeAux input base n i d

/-- `TREE_DECODE(probs, 2 ^ numBits, i)`: walk the tree and subtract the
limit at the end. -/
def treeDecode (input : List Nat) (base numBits : Nat) (d : DecoderCore) : Nat × DecoderCore :=
  match treeDecodeAux input base numBits 1 d with
  | (i, d) => (i - 2 ^ numBits, d)

/-- The plain literal decode loop
`symbol = 1; do GET_BIT(prob + symbol, symbol) while (symbol < 0x100)`:
eight tree steps with no final subtraction (the cast to `Byte` of the
caller drops the leading 1 bit). -/
def literalTree (input : List Nat) (base : Nat) (d : DecoderCore) : Nat × DecoderCore :=
  treeDecodeAux input base 8 1 d

/-- The matched-literal decode loop of `DecodeReal` (the `state >=
kNumLitStates` branch), gated by the bits of `matchByte`. -/
def matchedLitAux (input : List Nat) (base : Nat) :
    Nat → Nat → Nat → Nat → DecoderCore → Nat × DecoderCore
  | 0, _, _, symbol, d => (symbol, d)
  | n + 1, matchByte, offs, symbol, d =>
    let matchByte := matchByte * 2
    let bit := matchByte &&& offs
    match coreBit input (base + offs + bit + symbol) d with
    | (false, d) =>
      matchedLitAux input base n matchByte (offs &&& (0xFFFFFFFF ^^^ bit)) (2 * symbol) d
    | (true, d) =>
      matchedLitAux input base n matchByte (offs &&& bit) (2 * symbol + 1) d

def matchedLitTree (input : List Nat) (base matchByte : Nat) (d : DecoderCore) :
    Nat × DecoderCore :=
  matchedLitAux input base 8 matchByte 0x100 1 d

/-- The length decoder of `DecodeReal`: a choice bit selects the low,
mid or high tree rooted at `probBase` (`LenCoder` or `RepLenCoder`). -/
def lenDecode (input : List Nat) (probBase posState : Nat) (d : DecoderCore) :
    Nat × DecoderCore :=
  match coreBit input (probBase + LenChoice) d with
  | (false, d) =>
    match treeDecode input (probBase + LenLow + posState * kLenNumLowSymbols) kLenNumLowBits d with
    | (len, d) => (len, d)
  | (true, d) =>
    match coreBit input (probBase + LenChoice2) d with
    | (false, d) =>
      match treeDecode input (probBase + LenMid + posState * kLenNumMidSymbols) kLenNumMidBits d with
      | (len, d) => (len + kLenNumLowSymbols, d)
    | (true, d) =>
      match treeDecode input (probBase + LenHigh) kLenNumHighBits d with
      | (len, d) => (len + kLenNumLowSymbols + kLenNumMidSymbols, d)

/-- The reverse-bit context decode over `SpecPos` for position slots
below `kEndPosModelIndex`: each decoded 1 bit ors `mask` into the
distance, `mask` doubling every step. -/
def specPosAux (input : List Nat) (base : Nat) :
    Nat → Nat → Nat → Nat → DecoderCore → Nat × DecoderCore
  | 0, _, _, distance, d => (distance, d)
  | n + 1, i, mask, distance, d =>
    match coreBit input (base + i) d with
    | (false, d) => specPosAux input base n (2 * i) (2 * mask) distance d
    | (true, d) => specPosAux input base n (2 * i + 1) (2 * mask) (distance ||| mask) d

/-- The fixed-probability direct-bit loop of the distance decoder:
`NORMALIZE; range >>= 1; code -= range;
t = 0 - (code >> 31); distance = (distance << 1) + (t + 1);
code += range & t`, all on `UInt32`. -/
def directBitsAux (input : List Nat) :
    Nat → Nat → DecoderCore → Nat × DecoderCore
  | 0, distance, d => (distance, d)
  | n + 1, distance, d =>
    let d := coreNormalize input d
    let range := d.m_range / 2
    let code := sub32 d.m_code range
    if code / 2 ^ 31 = 1 then
      directBitsAux input n (wrap32 (2 * distance))
        { d with m_range := range, m_code := wrap32 (code + range) }
    else
      directBitsAux input n (wrap32 (2 * distance + 1))
        { d with m_range := range, m_code := code }

/-- The four unrolled `Align` bits, oring 1, 2, 4, 8 into the distance. -/
def alignBits (input : List Nat) (distance : Nat) (d : DecoderCore) :
    Nat × DecoderCore :=
  let step := fun (m i distance : Nat) (d : DecoderCore) =>
    match coreBit input (Align + i) d with
    | (false, d) => (2 * i, distance, d)
    | (true, d) => (2 * i + 1, distance ||| m, d)
  match step 1 1 distance d with
  | (i, distance, d) =>
  match step 2 i distance d with
  | (i, distance, d) =>
  match step 4 i distance d with
  | (i, distance, d) =>
  match step 8 i distance d with
  | (_, distance, d) => (distance, d)

/-- The overlapping forward byte copy of the match branch
(`*dest = *(dest + src)` one byte at a time, each write visible to
later reads). -/
def copyMatch (mem : List Nat) : Nat → Nat → Nat → List Nat
  | _, _, 0 => mem
  | dst, src, n + 1 => copyMatch (mem.set dst (mem.getD src 0)) (dst + 1) (src + 1) n

/-- The wraparound variant of the match copy: the source index resets to
0 when it reaches `dicBufSize`. -/
def copyMatchWrap (mem : List Nat) (size : Nat) : Nat → Nat → Nat → List Nat
  | _, _, 0 => mem
  | dst, src, n + 1 =>
    copyMatchWrap (mem.set dst (mem.getD src 0)) size (dst + 1)
      (if src + 1 = size then 0 else src + 1) n

/-- Outcome of a core-decoder computation: normal result, a thrown
`BadStream`, or fuel exhaustion of the model (the C++ loops terminate by
data progress; fuel is an artefact of the embedding). -/
inductive CRes (α : Type) where
  | ok : α → CRes α
  | bad : CRes α
  | more : CRes α
deriving DecidableEq

/-- The copy part of the match branch of `DecodeReal` (lines 724-760):
add `kMatchMinLen`, reject a match decoded exactly at the output limit,
then copy `min(limit - dicPos, len)` bytes from the back-reference,
choosing the plain or the wraparound loop.  Returns the remaining `len`
(nonzero when the copy was truncated by `limit`). -/
def matchCopy (limit len0 : Nat) (d : DecoderCore) : CRes (Nat × Bool × DecoderCore) :=
  let len := len0 + kMatchMinLen
  if limit = d.m_dic.pos then .bad
  else
    let dicBufSize := d.m_dic.size
    let rem := sub64 limit d.m_dic.pos
    let curLen := if rem < len then rem else len
    let pos := dicBackIdx d.m_dic.pos d.rep0 dicBufSize
    let d := { d with processedPos := wrap32 (d.processedPos + curLen) }
    let len := len - curLen
    if pos + curLen ≤ dicBufSize then
      let mem := copyMatch d.m_dic.mem d.m_dic.pos pos curLen
      .ok (len, false, { d with m_dic := { d.m_dic with mem := mem, pos := d.m_dic.pos + curLen } })
    else
      let mem := copyMatchWrap d.m_dic.mem dicBufSize d.m_dic.pos pos curLen
      .ok (len, false, { d with m_dic := { d.m_dic with mem := mem, pos := d.m_dic.pos + curLen } })

/-- End of the simple-match branch (lines 706-722): rotate the rep
distances, validate the decoded distance (`BadStream` when invalid),
update the meta-state and run the copy. -/
def simpleMatchFinish (limit len distance : Nat) (d : DecoderCore) :
    CRes (Nat × Bool × DecoderCore) :=
  let d := { d with rep3 := d.rep2, rep2 := d.rep1, rep1 := d.rep0,
                    rep0 := wrap32 (distance + 1) }
  if !distanceIsValid d.checkDicSize d.processedPos distance then .bad
  else
    let d := { d with state :=
      if d.state < kNumStates + kNumLitStates then kNumLitStates else kNumLitStates + 3 }
    matchCopy limit len d

/-- The shared tail of the match and rep branches of `DecodeReal`:
length decode, then (for a simple match, recognizable by `state >=
kNumStates`) the position-slot and distance decode including the
end-of-stream marker, then the copy. -/
def matchTail (input : List Nat) (limit posState probBase : Nat) (d : DecoderCore) :
    CRes (Nat × Bool × DecoderCore) :=
  match lenDecode input probBase posState d with
  | (len, d) =>
    if kNumStates ≤ d.state then
      let base := PosSlot +
        (if len < kNumLenToPosStates then len else kNumLenToPosStates - 1) * 2 ^ kNumPosSlotBits
      match treeDecode input base kNumPosSlotBits d with
      | (distance, d) =>
        if kStartPosModelIndex ≤ distance then
          let posSlot := distance
          let numDirectBits := distance / 2 - 1
          let distance := 2 ||| (distance &&& 1)
          if posSlot < kEndPosModelIndex then
            let distance := wrap32 (distance <<< numDirectBits)
            match specPosAux input (SpecPos + distance - posSlot - 1) numDirectBits 1 1 distance d with
            | (distance, d) => simpleMatchFinish limit len distance d
          else
            match directBitsAux input (numDirectBits - kNumAlignBits) distance d with
            | (distance, d) =>
              let distance := wrap32 (distance <<< kNumAlignBits)
              match alignBits input distance d with
              | (distance, d) =>
                if distance = 0xFFFFFFFF then
                  .ok (len + kMatchSpecLenStart, true, { d with state := d.state - kNumStates })
                else simpleMatchFinish limit len distance d
        else simpleMatchFinish limit len distance d
    else matchCopy limit len d

/-- One iteration of the `do`-`while` symbol loop of
`DecoderCore::DecodeReal`.  Returns the local `len` remaining after the
symbol, a flag marking the end-of-stream-marker `break`, and the decoder
state.  `len0` is the incoming value of the local `len` (returned
unchanged by the literal and short-rep branches). -/
def decodeSymbol (input : List Nat) (limit len0 : Nat) (d : DecoderCore) :
    CRes (Nat × Bool × DecoderCore) :=
  let pbMask := 2 ^ d.m_properties.pb - 1
  let lpMask := 2 ^ d.m_properties.lp - 1
  let lc := d.m_properties.lc
  let dicBufSize := d.m_dic.size
  let posState := d.processedPos &&& pbMask
  match coreBit input (IsMatch + d.state * kNumPosStatesMax + posState) d with
  | (false, d) =>
    let probIdx :=
      if d.checkDicSize ≠ 0 ∨ d.processedPos ≠ 0 then
        Literal + LZMA_LIT_SIZE *
          (((d.processedPos &&& lpMask) <<< lc) +
            (byteAt d.m_dic.mem ((if d.m_dic.pos = 0 then dicBufSize else d.m_dic.pos) - 1)
              >>> (8 - lc)))
      else Literal
    match
      (if d.state < kNumLitStates then
        literalTree input probIdx { d with state := litNextState d.state }
      else
        let matchByte := byteAt d.m_dic.mem (dicBackIdx d.m_dic.pos d.rep0 dicBufSize)
        matchedLitTree input probIdx matchByte { d with state := litNextState d.state }) with
    | (symbol, d) =>
      let mem := d.m_dic.mem.set d.m_dic.pos (symbol % 256)
      .ok (len0, false,
        { d with m_dic := { d.m_dic with mem := mem, pos := d.m_dic.pos + 1 },
                 processedPos := wrap32 (d.processedPos + 1) })
  | (true, d) =>
    match coreBit input (IsRep + d.state) d with
    | (false, d) =>
      let d := { d with state := d.state + kNumStates }
      matchTail input limit posState LenCoder d
    | (true, d) =>
      if repIntoEmptyDic d.checkDicSize d.processedPos then .bad
      else
        match coreBit input (IsRepG0 + d.state) d with
        | (false, d) =>
          match coreBit input (IsRep0Long + d.state * kNumPosStatesMax + posState) d with
          | (false, d) =>
            let mem := d.m_dic.mem.set d.m_dic.pos
              (byteAt d.m_dic.mem (dicBackIdx d.m_dic.pos d.rep0 dicBufSize))
            .ok (len0, false,
              { d with m_dic := { d.m_dic with mem := mem, pos := d.m_dic.pos + 1 },
                       processedPos := wrap32 (d.processedPos + 1),
                       state := if d.state < kNumLitStates then 9 else 11 })
          | (true, d) =>
            let d := { d with state := if d.state < kNumLitStates then 8 else 11 }
            matchTail input limit posState RepLenCoder d
        | (true, d) =>
          match
            (match coreBit input (IsRepG1 + d.state) d with
            | (false, d) => (d.rep1, d)
            | (true, d) =>
              match coreBit input (IsRepG2 + d.state) d with
              | (false, d) => (d.rep2, { d with rep2 := d.rep1 })
              | (true, d) => (d.rep3, { d with rep3 := d.rep2, rep2 := d.rep1 })) with
          | (distance, d) =>
            let d := { d with rep1 := d.rep0, rep0 := distance }
            let d := { d with state := if d.state < kNumLitStates then 8 else 11 }
            matchTail input limit posState RepLenCoder d

/-- The write-back at the end of `DecodeReal`: one last `NORMALIZE` and
the local `len` stored into `remainLen` (the other locals are threaded
through the state in this embedding). -/
def finishReal (input : List Nat) (len : Nat) (d : DecoderCore) : DecoderCore :=
  let d := coreNormalize input d
  { d with remainLen := len }

/-- The symbol loop of `DecodeReal`: decode symbols while
`dicPos < limit && buf < bufLimit`, stopping early on the end marker. -/
def decodeRealLoop (input : List Nat) (bufLimit limit : Nat) :
    Nat → Nat → DecoderCore → CRes DecoderCore
  | 0, _, _ => .more
  | fuel + 1, len, d =>
    match decodeSymbol input limit len d with
    | .bad => .bad
    | .more => .more
    | .ok (len, brk, d) =>
      if brk then .ok (finishReal input len d)
      else if d.m_dic.pos < limit ∧ d.buf < bufLimit then
        decodeRealLoop input bufLimit limit fuel len d
      else .ok (finishReal input len d)

/-- `DecoderCore::DecodeReal` with the local `len` starting at 0. -/
def DecodeReal (fuel : Nat) (input : List Nat) (bufLimit limit : Nat) (d : DecoderCore) :
    CRes DecoderCore :=
  decodeRealLoop input bufLimit limit fuel 0 d

/-- The byte loop of `DecoderCore::WriteRem`: each byte re-reads its
source through the back-reference index at the current position. -/
def writeRemLoop (rep0 size : Nat) : List Nat → Nat → Nat → List Nat × Nat
  | mem, dicPos, 0 => (mem, dicPos)
  | mem, dicPos, n + 1 =>
    writeRemLoop rep0 size
      (mem.set dicPos (mem.getD (dicBackIdx dicPos rep0 size) 0)) (dicPos + 1) n

/-- `DecoderCore::WriteRem`: replay up to `remainLen` pending match
bytes, capped by `limit`. -/
def WriteRem (limit : Nat) (d : DecoderCore) : DecoderCore :=
  if d.remainLen ≠ 0 ∧ d.remainLen < kMatchSpecLenStart then
    let len := if sub64 limit d.m_dic.pos < d.remainLen then sub64 limit d.m_dic.pos
               else d.remainLen
    let d := if d.checkDicSize = 0 ∧ sub32 d.m_properties.dicSize d.processedPos ≤ len then
               { d with checkDicSize := d.m_properties.dicSize }
             else d
    let d := { d with processedPos := wrap32 (d.processedPos + len),
                      remainLen := d.remainLen - len }
    match writeRemLoop d.rep0 d.m_dic.size d.m_dic.mem d.m_dic.pos len with
    | (mem, dicPos) => { d with m_dic := { d.m_dic with mem := mem, pos := dicPos } }
  else d

/-- The chunked outer loop `DecoderCore::DecodeReal2`: clamp the limit to
the first dictionary-size boundary while `checkDicSize == 0`, run
`DecodeReal`, promote `checkDicSize`, flush `remainLen`, and iterate. -/
def decodeReal2Loop (input : List Nat) (bufLimit limit : Nat) :
    Nat → DecoderCore → CRes DecoderCore
  | 0, _ => .more
  | fuel + 1, d =>
    let limit2 :=
      if d.checkDicSize = 0 then
        let rem := sub32 d.m_properties.dicSize d.processedPos
        if rem < sub64 limit d.m_dic.pos then d.m_dic.pos + rem else limit
      else limit
    match DecodeReal fuel input bufLimit limit2 d with
    | .bad => .bad
    | .more => .more
    | .ok d =>
      let d := if d.m_properties.dicSize ≤ d.processedPos then
                 { d with checkDicSize := d.m_properties.dicSize }
               else d
      let d := WriteRem limit d
      if d.m_dic.pos < limit ∧ d.buf < bufLimit ∧ d.remainLen < kMatchSpecLenStart then
        decodeReal2Loop input bufLimit limit fuel d
      else .ok (if kMatchSpecLenStart < d.remainLen then
                  { d with remainLen := kMatchSpecLenStart }
                else d)

def DecodeReal2 (fuel : Nat) (input : List Nat) (bufLimit limit : Nat) (d : DecoderCore) :
    CRes DecoderCore :=
  decodeReal2Loop input bufLimit limit fuel d

/-! `DecoderCore::TryDummy`: a speculative decode of the next symbol
against the bytes at hand, with no state mutation.  The local range-coder
state is a triple `(range, code, idx)`; `NORMALIZE_CHECK` fails (and the
whole dry run reports `DUMMY_ERROR`, here `none`) when it would read at
or past `lim`. -/

inductive Dummy where
  | dummyError
  | dummyLit
  | dummyMatch
  | dummyRep
deriving DecidableEq

def dummyNormalize (buf : List Nat) (lim : Nat) :
    Nat × Nat × Nat → Option (Nat × Nat × Nat)
  | (range, code, idx) =>
    if range < kTopValue then
      if lim ≤ idx then none
      else some (wrap32 (range * 256), wrap32 (code * 256 + byteAt buf idx), idx + 1)
    else some (range, code, idx)

/-- `bit0Check` fused with `UPDATE_0_CHECK` / `UPDATE_1_CHECK`: same
arithmetic as `decodeBit` but without the probability update. -/
def dummyBit (probs : List Nat) (pidx : Nat) :
    Nat × Nat × Nat → Bool × (Nat × Nat × Nat)
  | (range, code, idx) =>
    let ttt := probs.getD pidx 0
    let bound := rcBound range ttt
    if code < bound then (false, (bound, code, idx))
    else (true, (sub32 range bound, sub32 code bound, idx))

/-- The `TREE_DECODE_CHECK` / literal-tree loops of `TryDummy`: `n` bit
reads, each preceded by `NORMALIZE_CHECK`. -/
def dummyTreeAux (buf : List Nat) (lim : Nat) (probs : List Nat) (base : Nat) :
    Nat → Nat → Nat × Nat × Nat → Option (Nat × (Nat × Nat × Nat))
  | 0, i, s => some (i, s)
  | n + 1, i, s => do
    let s ← dummyNormalize buf lim s
    match dummyBit probs (base + i) s with
    | (false, s) => dummyTreeAux buf lim probs base n (2 * i) s
    | (true, s) => dummyTreeAux buf lim probs base n (2 * i + 1) s

/-- The matched-literal dry-run loop of `TryDummy`. -/
def dummyMatchedAux (buf : List Nat) (lim : Nat) (probs : List Nat) (base : Nat) :
    Nat → Nat → Nat → Nat → Nat × Nat × Nat → Option (Nat × Nat × Nat)
  | 0, _, _, _, s => some s
  | n + 1, matchByte, offs, symbol, s => do
    let matchByte := matchByte * 2
    let bit := matchByte &&& offs
    let s ← dummyNormalize buf lim s
    match dummyBit probs (base + offs + bit + symbol) s with
    | (false, s) =>
      dummyMatchedAux buf lim probs base n matchByte (offs &&& (0xFFFFFFFF ^^^ bit)) (2 * symbol) s
    | (true, s) =>
      dummyMatchedAux buf lim probs base n matchByte (offs &&& bit) (2 * symbol + 1) s

/-- The fixed-probability direct-bit dry-run loop:
`NORMALIZE_CHECK; range >>= 1; code -= range & (((code - range) >> 31) - 1)`. -/
def dummyDirectAux (buf : List Nat) (lim : Nat) :
    Nat → Nat × Nat × Nat → Option (Nat × Nat × Nat)
  | 0, s => some s
  | n + 1, s => do
    let (range, code, idx) ← dummyNormalize buf lim s
    let range := range / 2
    let cr := sub32 code range
    let code := if cr / 2 ^ 31 = 1 then code else cr
    dummyDirectAux buf lim n (range, code, idx)

/-- The dry-run length decode (`LenChoice` / `LenChoice2` selection plus
the selected tree), returning the symbol before the offset addition
(`TryDummy` adds `offset` but only compares `len` against
`kNumLenToPosStates` afterwards, so the offset is added here too). -/
def dummyLenDecode (buf : List Nat) (lim : Nat) (probs : List Nat) (probBase posState : Nat)
    (s : Nat × Nat × Nat) : Option (Nat × (Nat × Nat × Nat)) := do
  let s ← dummyNormalize buf lim s
  match dummyBit probs (probBase + LenChoice) s with
  | (false, s) => do
    let (len, s) ← dummyTreeAux buf lim probs
      (probBase + LenLow + posState * kLenNumLowSymbols) kLenNumLowBits 1 s
    pure (len - 2 ^ kLenNumLowBits, s)
  | (true, s) => do
    let s ← dummyNormalize buf lim s
    match dummyBit probs (probBase + LenChoice2) s with
    | (false, s) => do
      let (len, s) ← dummyTreeAux buf lim probs
        (probBase + LenMid + posState * kLenNumMidSymbols) kLenNumMidBits 1 s
      pure (len - 2 ^ kLenNumMidBits + kLenNumLowSymbols, s)
    | (true, s) => do
      let (len, s) ← dummyTreeAux buf lim probs (probBase + LenHigh) kLenNumHighBits 1 s
      pure (len - 2 ^ kLenNumHighBits + kLenNumLowSymbols + kLenNumMidSymbols, s)

/-- Intermediate result of the match/rep prefix of `TryDummy`: either an
early `return DUMMY_REP` (the short-rep path) or the continuation into
the length decode with the dry-run result, local state and length-coder
base. -/
inductive DummyMid where
  | early : Dummy → DummyMid
  | cont : Dummy → Nat → Nat → Nat × Nat × Nat → DummyMid

/-- The body of `TryDummy` on the success path; `none` is `DUMMY_ERROR`. -/
def tryDummyCore (buf : List Nat) (lim : Nat) (d : DecoderCore) : Option Dummy := do
  let probs := d.m_probs
  let posState := d.processedPos &&& (2 ^ d.m_properties.pb - 1)
  let s0 : Nat × Nat × Nat := (d.m_range, d.m_code, 0)
  let s ← dummyNormalize buf lim s0
  match dummyBit probs (IsMatch + d.state * kNumPosStatesMax + posState) s with
  | (false, s) =>
    let probIdx :=
      if d.checkDicSize ≠ 0 ∨ d.processedPos ≠ 0 then
        Literal + LZMA_LIT_SIZE *
          (((d.processedPos &&& (2 ^ d.m_properties.lp - 1)) <<< d.m_properties.lc) +
            (byteAt d.m_dic.mem ((if d.m_dic.pos = 0 then d.m_dic.size else d.m_dic.pos) - 1)
              >>> (8 - d.m_properties.lc)))
      else Literal
    if d.state < kNumLitStates then do
      let (_, s) ← dummyTreeAux buf lim probs probIdx 8 1 s
      let _ ← dummyNormalize buf lim s
      pure .dummyLit
    else do
      let matchByte := byteAt d.m_dic.mem (dicBackIdx d.m_dic.pos d.rep0 d.m_dic.size)
      let s ← dummyMatchedAux buf lim probs probIdx 8 matchByte 0x100 1 s
      let _ ← dummyNormalize buf lim s
      pure .dummyLit
  | (true, s) => do
    let s ← dummyNormalize buf lim s
    let mid ←
      (match dummyBit probs (IsRep + d.state) s with
      | (false, s) => some (DummyMid.cont .dummyMatch 0 LenCoder s)
      | (true, s) => do
        let s ← dummyNormalize buf lim s
        match dummyBit probs (IsRepG0 + d.state) s with
        | (false, s) => do
          let s ← dummyNormalize buf lim s
          match dummyBit probs (IsRep0Long + d.state * kNumPosStatesMax + posState) s with
          | (false, s) => do
            let _ ← dummyNormalize buf lim s
            some (DummyMid.early .dummyRep)
          | (true, s) => some (DummyMid.cont .dummyRep kNumStates RepLenCoder s)
        | (true, s) => do
          let s ← dummyNormalize buf lim s
          match dummyBit probs (IsRepG1 + d.state) s with
          | (false, s) => some (DummyMid.cont .dummyRep kNumStates RepLenCoder s)
          | (true, s) => do
            let s ← dummyNormalize buf lim s
            match dummyBit probs (IsRepG2 + d.state) s with
            | (false, s) => some (DummyMid.cont .dummyRep kNumStates RepLenCoder s)
            | (true, s) => some (DummyMid.cont .dummyRep kNumStates RepLenCoder s))
    match mid with
    | .early r => pure r
    | .cont res st probBase s =>
    let (len, s) ← dummyLenDecode buf lim probs probBase posState s
    if st < 4 then do
      let (posSlot, s) ← dummyTreeAux buf lim probs
        (PosSlot + (if len < kNumLenToPosStates then len else kNumLenToPosStates - 1) *
          2 ^ kNumPosSlotBits) kNumPosSlotBits 1 s
      let posSlot := posSlot - 2 ^ kNumPosSlotBits
      if kStartPosModelIndex ≤ posSlot then do
        let numDirectBits := posSlot / 2 - 1
        if posSlot < kEndPosModelIndex then do
          let base := SpecPos + (wrap32 ((2 ||| (posSlot &&& 1)) <<< numDirectBits)) - posSlot - 1
          let (_, s) ← dummyTreeAux buf lim probs base numDirectBits 1 s
          let _ ← dummyNormalize buf lim s
          pure res
        else do
          let s ← dummyDirectAux buf lim (numDirectBits - kNumAlignBits) s
          let (_, s) ← dummyTreeAux buf lim probs Align kNumAlignBits 1 s
          let _ ← dummyNormalize buf lim s
          pure res
      else do
        let _ ← dummyNormalize buf lim s
        pure res
    else do
      let _ ← dummyNormalize buf lim s
      pure res

/-- `DecoderCore::TryDummy`: `DUMMY_ERROR` when the dry run would read
past the available input. -/
def TryDummy (buf : List Nat) (lim : Nat) (d : DecoderCore) : Dummy :=
  match tryDummyCore buf lim d with
  | none => .dummyError
  | some r => r

/-! Initialization helpers of `DecoderCore`. -/

/-- `DecoderCore::InitDicAndState`. -/
def InitDicAndState (initDic initState : Bool) (d : DecoderCore) : DecoderCore :=
  let d := { d with needFlush := true, remainLen := 0, tempBuf := [] }
  let d := if initDic then
             { d with processedPos := 0, checkDicSize := 0, needInitState := true }
           else d
  if initState then { d with needInitState := true } else d

/-- The `memcpy` of `UpdateWithUncompressed`, one byte at a time. -/
def listCopyIn (mem : List Nat) : Nat → List Nat → List Nat
  | _, [] => mem
  | pos, b :: rest => listCopyIn (mem.set pos b) (pos + 1) rest

/-- `DecoderCore::UpdateWithUncompressed`: copy `src` into the
dictionary at `pos` and advance the position counters. -/
def UpdateWithUncompressed (src : List Nat) (d : DecoderCore) : DecoderCore :=
  let mem := listCopyIn d.m_dic.mem d.m_dic.pos src
  let d := { d with m_dic := { d.m_dic with mem := mem, pos := d.m_dic.pos + src.length } }
  let d := if d.checkDicSize = 0 ∧ sub32 d.m_properties.dicSize d.processedPos ≤ src.length then
             { d with checkDicSize := d.m_properties.dicSize }
           else d
  { d with processedPos := wrap32 (d.processedPos + src.length) }

/-- `DecoderCore::InitStateReal`: reset the first `numProbs` probability
counters to the midpoint, the reps to 1 and the meta-state to 0. -/
def InitStateReal (d : DecoderCore) : DecoderCore :=
  let numProbs := Literal + LZMA_LIT_SIZE * 2 ^ (d.m_properties.lc + d.m_properties.lp)
  { d with m_probs := List.replicate numProbs (kBitModelTotal / 2) ++ d.m_probs.drop numProbs,
           rep0 := 1, rep1 := 1, rep2 := 1, rep3 := 1, state := 0, needInitState := false }

/-- `DecoderCore::InitRc`: seed `code` from bytes 1..4 of the 5-byte
prefix (big-endian) and `range` from `0xFFFFFFFF`. -/
def InitRc (data : List Nat) (d : DecoderCore) : DecoderCore :=
  { d with m_code := wrap32 (byteAt data 1 * 2 ^ 24 + byteAt data 2 * 2 ^ 16 +
                             byteAt data 3 * 2 ^ 8 + byteAt data 4),
           m_range := 0xFFFFFFFF, needFlush := false }

/-- The `while (this->remainLen != kMatchSpecLenStart)` loop of
`DecoderCore::DecodeToDic`.  `srcLen` doubles as the read offset into
`src` (the C++ `srcBytes` pointer and `srcLen` counter advance in
lockstep).  `DecodeReal2` runs either over `src` directly (with `buf`
and `bufLimit` as absolute offsets into `src`) or over the filled
`tempBuf`. -/
def coreDecodeToDicLoop (dicLimit : Nat) (src : List Nat) (fm : FinishMode) :
    Nat → Nat → DecoderCore → CRes (Nat × Status × DecoderCore)
  | 0, _, _ => .more
  | fuel + 1, srcLen, d =>
    if d.remainLen = kMatchSpecLenStart then
      if d.m_code = 0 then .ok (srcLen, .FinishedWithMark, d) else .bad
    else
      let flush : CRes (Nat × DecoderCore) :=
        if d.needFlush then
          let take := min (RC_INIT_SIZE - d.tempBuf.length) (src.length - srcLen)
          let d1 := { d with tempBuf := d.tempBuf ++ (src.drop srcLen).take take }
          let srcLen1 := srcLen + take
          if d1.tempBuf.length < RC_INIT_SIZE then .ok (srcLen1, { d1 with needFlush := true })
          else if byteAt d1.tempBuf 0 ≠ 0 then .bad
          else .ok (srcLen1, { (InitRc d1.tempBuf d1) with tempBuf := [] })
        else .ok (srcLen, d)
      match flush with
      | .bad => .bad
      | .more => .more
      | .ok (srcLen, d) =>
        if d.needFlush then .ok (srcLen, .NeedsMoreInput, d)
        else
        if dicLimit ≤ d.m_dic.pos ∧ d.remainLen = 0 ∧ d.m_code = 0 then
          .ok (srcLen, .MaybeFinishedWithoutMark, d)
        else if dicLimit ≤ d.m_dic.pos ∧ fm = .Any then
          .ok (srcLen, .NotFinished, d)
        else if dicLimit ≤ d.m_dic.pos ∧ d.remainLen ≠ 0 then .bad
        else
          let checkEndMarkNow := dicLimit ≤ d.m_dic.pos
          let d := if d.needInitState then InitStateReal d else d
          if d.tempBuf.length = 0 then
            let inRem := src.length - srcLen
            let runA : Nat → CRes (Nat × Status × DecoderCore) := fun bufLimit =>
              match DecodeReal2 fuel src bufLimit dicLimit { d with buf := srcLen } with
              | .bad => .bad
              | .more => .more
              | .ok d =>
                coreDecodeToDicLoop dicLimit src fm fuel (srcLen + (d.buf - srcLen)) d
            if inRem < LZMA_REQUIRED_INPUT_MAX ∨ checkEndMarkNow then
              match TryDummy (src.drop srcLen) inRem d with
              | .dummyError =>
                .ok (srcLen + inRem, .NeedsMoreInput, { d with tempBuf := src.drop srcLen })
              | dummyRes =>
                if checkEndMarkNow ∧ dummyRes ≠ .dummyMatch then .bad
                else runA srcLen
            else runA (srcLen + (inRem - LZMA_REQUIRED_INPUT_MAX))
          else
            let inRem := src.length - srcLen
            let take := min (LZMA_REQUIRED_INPUT_MAX - d.tempBuf.length) inRem
            let lookAhead := take
            let d := { d with tempBuf := d.tempBuf ++ (src.drop srcLen).take take }
            let runB : CRes (Nat × Status × DecoderCore) :=
              match DecodeReal2 fuel d.tempBuf 0 dicLimit { d with buf := 0 } with
              | .bad => .bad
              | .more => .more
              | .ok d1 =>
                let lookAhead1 := lookAhead - (d.tempBuf.length - d1.buf)
                coreDecodeToDicLoop dicLimit src fm fuel (srcLen + lookAhead1)
                  { d1 with tempBuf := [] }
            if d.tempBuf.length < LZMA_REQUIRED_INPUT_MAX ∨ checkEndMarkNow then
              match TryDummy d.tempBuf d.tempBuf.length d with
              | .dummyError => .ok (srcLen + lookAhead, .NeedsMoreInput, d)
              | dummyRes =>
                if checkEndMarkNow ∧ dummyRes ≠ .dummyMatch then .bad
                else runB
            else runB

/-- `DecoderCore::DecodeToDic`: entry point, `WriteRem` first. -/
def coreDecodeToDic (fuel dicLimit : Nat) (src : List Nat) (fm : FinishMode)
    (d : DecoderCore) : CRes (Nat × Status × DecoderCore) :=
  coreDecodeToDicLoop dicLimit src fm fuel 0 (WriteRem dicLimit d)

/-! The LZMA2 framer (`lzma::Decoder2` of Lzma2Decoder.hpp). -/

inductive ELzma2State where
  | CONTROL
  | UNPACK0
  | UNPACK1
  | PACK0
  | PACK1
  | PROP
  | DATA
  | DATA_CONT
  | FINISHED
  | ERROR
deriving DecidableEq

structure Decoder2State where
  decoder : DecoderCore
  packSize : Nat
  unpackSize : Nat
  state : ELzma2State
  control : Nat
  needInitDic : Bool
  needInitState : Bool
  needInitProp : Bool
deriving DecidableEq

def CONTROL_LZMA : Nat := 0x80
def CONTROL_COPY_NO_RESET : Nat := 2
def CONTROL_COPY_RESET_DIC : Nat := 1
def LC_PLUS_LP_MAX : Nat := 4

def isUncompressedState (s : Decoder2State) : Bool := s.control &&& CONTROL_LZMA = 0

def getLzmaMode (s : Decoder2State) : Nat := (s.control >>> 5) &&& 3

def isThereProp (mode : Nat) : Bool := 2 ≤ mode

/-- Outcome of a framer computation.  A thrown `BadStream` carries the
decoder object as mutated at the throw site when the throw happens at
framer level; errors propagating out of `DecoderCore` carry `none` (the
core locals are not written back by the C++ on unwind). -/
inductive FRes (α : Type) where
  | ok : α → FRes α
  | bad : Option Decoder2State → FRes α
  | more : FRes α
deriving DecidableEq

/-- `Decoder2::UpdateState`: one header byte of the chunk state machine,
including the assignment of the returned state into `this->state`. -/
def updateState (b : Nat) (s : Decoder2State) : Decoder2State :=
  if s.state = .CONTROL then
    let s := { s with control := b }
    if b = 0 then { s with state := .FINISHED }
    else if b &&& CONTROL_LZMA = 0 then
      if 2 < (b &&& 0x7F) then { s with state := .ERROR }
      else { s with unpackSize := 0, state := .UNPACK0 }
    else { s with unpackSize := (b &&& 0x1F) <<< 16, state := .UNPACK0 }
  else if s.state = .UNPACK0 then
    { s with unpackSize := s.unpackSize ||| (b <<< 8), state := .UNPACK1 }
  else if s.state = .UNPACK1 then
    let s := { s with unpackSize := (s.unpackSize ||| b) + 1 }
    { s with state := if isUncompressedState s then .DATA else .PACK0 }
  else if s.state = .PACK0 then
    { s with packSize := b <<< 8, state := .PACK1 }
  else if s.state = .PACK1 then
    let s := { s with packSize := (s.packSize ||| b) + 1 }
    if isThereProp (getLzmaMode s) then { s with state := .PROP }
    else if s.needInitProp then { s with state := .ERROR }
    else { s with state := .DATA }
  else if s.state = .PROP then
    if 9 * 5 * 5 ≤ b then { s with state := .ERROR }
    else
      let lc := b % 9
      let b1 := b / 9
      let s := { s with decoder := { s.decoder with
        m_properties := { s.decoder.m_properties with pb := b1 / 5 } } }
      let lp := b1 % 5
      if LC_PLUS_LP_MAX < lc + lp then { s with state := .ERROR }
      else
        let dec := { s.decoder with m_properties := { s.decoder.m_properties with lc := lc, lp := lp } }
        { s with decoder := dec, needInitProp := false, state := .DATA }
  else { s with state := .ERROR }

/-- The `while (this->state != LZMA2_STATE_FINISHED)` loop of
`Decoder2::DecodeToDic`.  `srcLen` again doubles as the read offset. -/
def decoder2DecodeToDicLoop (dicLimit : Nat) (src : List Nat) (fm : FinishMode) :
    Nat → Nat → Decoder2State → FRes (Nat × Status × Decoder2State)
  | 0, _, _ => .more
  | fuel + 1, srcLen, s =>
    if s.state = .FINISHED then .ok (srcLen, .FinishedWithMark, s)
    else
      let dicPos := s.decoder.m_dic.pos
      if s.state = .ERROR then .bad (some s)
      else if dicPos = dicLimit ∧ fm = .Any then .ok (srcLen, .NotFinished, s)
      else if s.state ≠ .DATA ∧ s.state ≠ .DATA_CONT then
        if srcLen = src.length then .ok (srcLen, .NeedsMoreInput, s)
        else decoder2DecodeToDicLoop dicLimit src fm fuel (srcLen + 1)
          (updateState (byteAt src srcLen) s)
      else
        let destSizeCur0 := sub64 dicLimit dicPos
        let (destSizeCur, curFM) :=
          if s.unpackSize ≤ destSizeCur0 then (s.unpackSize, FinishMode.End)
          else (destSizeCur0, FinishMode.Any)
        if isUncompressedState s then
          if srcLen = src.length then .ok (srcLen, .NeedsMoreInput, s)
          else if s.state = .DATA ∧ s.control ≠ CONTROL_COPY_RESET_DIC ∧ s.needInitDic then
            .bad (some s)
          else
            let s :=
              if s.state = .DATA then
                let initDic := s.control = CONTROL_COPY_RESET_DIC
                let s := if initDic then { s with needInitProp := true, needInitState := true }
                         else s
                { s with needInitDic := false,
                         decoder := InitDicAndState initDic false s.decoder }
              else s
            let srcSizeCur := min (src.length - srcLen) destSizeCur
            if srcSizeCur = 0 then .bad (some s)
            else
              let s := { s with
                decoder := UpdateWithUncompressed ((src.drop srcLen).take srcSizeCur) s.decoder,
                unpackSize := s.unpackSize - srcSizeCur }
              let s := { s with state := if s.unpackSize = 0 then .CONTROL else .DATA_CONT }
              decoder2DecodeToDicLoop dicLimit src fm fuel (srcLen + srcSizeCur) s
        else
          if s.state = .DATA ∧ ((getLzmaMode s ≠ 3 ∧ s.needInitDic) ∨
              (getLzmaMode s = 0 ∧ s.needInitState)) then
            .bad (some s)
          else
            let s :=
              if s.state = .DATA then
                let mode := getLzmaMode s
                { s with decoder := InitDicAndState (mode = 3) (0 < mode) s.decoder,
                         needInitDic := false, needInitState := false, state := .DATA_CONT }
              else s
            let srcSizeCur := min (src.length - srcLen) s.packSize
            match coreDecodeToDic fuel (dicPos + destSizeCur)
                ((src.drop srcLen).take srcSizeCur) curFM s.decoder with
            | .more => .more
            | .bad => .bad none
            | .ok (consumed, status, dcore) =>
              let outSizeProcessed := dcore.m_dic.pos - dicPos
              let s := { s with decoder := dcore, packSize := s.packSize - consumed,
                                unpackSize := s.unpackSize - outSizeProcessed }
              let srcLen := srcLen + consumed
              if status = .NeedsMoreInput then .ok (srcLen, .NeedsMoreInput, s)
              else if consumed = 0 ∧ outSizeProcessed = 0 then
                if status ≠ .MaybeFinishedWithoutMark ∨ s.unpackSize ≠ 0 ∨ s.packSize ≠ 0 then
                  .bad (some s)
                else decoder2DecodeToDicLoop dicLimit src fm fuel srcLen
                  { s with state := .CONTROL }
              else decoder2DecodeToDicLoop dicLimit src fm fuel srcLen s

/-- `Decoder2::DecodeToDic`. -/
def decoder2DecodeToDic (fuel dicLimit : Nat) (src : List Nat) (fm : FinishMode)
    (s : Decoder2State) : FRes (Nat × Status × Decoder2State) :=
  decoder2DecodeToDicLoop dicLimit src fm fuel 0 s

/-- `Decoder2::Reset`. -/
def decoder2Reset (s : Decoder2State) : Decoder2State :=
  let s := { s with state := .CONTROL, needInitDic := true, needInitState := true,
                    needInitProp := true }
  let d := { s.decoder with m_dic := { s.decoder.m_dic with pos := 0 } }
  { s with decoder := InitDicAndState true true d }

/-- The `Decoder2` constructor: rejects `prop > 40` (the
`std::invalid_argument` throw is `none`), sets the worst-case `lc` and
the dictionary size, allocates the probability array (uninitialized
memory modelled as zeros) and runs `Reset`.  The dictionary memory is
installed later by the caller (`Lzma2Decode` / `BufDecoder2`). -/
def decoder2Mk (prop : Nat) : Option Decoder2State :=
  if 40 < prop then none
  else
    let dsz := if prop = 40 then 0xFFFFFFFF else dicSizeFromProp prop
    let props : Properties := { lc := LC_PLUS_LP_MAX, lp := 0, pb := 0, dicSize := dsz }
    let core : DecoderCore := {
      m_dic := { mem := [], size := 0, pos := 0 },
      m_properties := props,
      m_probs := List.replicate (calcProbSize LC_PLUS_LP_MAX) 0,
      buf := 0, m_range := 0, m_code := 0, processedPos := 0, checkDicSize := 0,
      state := 0, rep0 := 0, rep1 := 0, rep2 := 0, rep3 := 0, remainLen := 0,
      needFlush := false, needInitState := false, tempBuf := [] }
    let raw : Decoder2State := {
      decoder := core, packSize := 0, unpackSize := 0,
      state := .CONTROL, control := 0, needInitDic := true, needInitState := true,
      needInitProp := true }
    some (decoder2Reset raw)

/-- The one-shot `lzma::Lzma2Decode`: the destination buffer (length
`outSize`, contents unspecified, modelled as zeros) becomes the
dictionary, one `DecodeToDic` pass runs, and the written prefix of the
dictionary is the output. -/
def lzma2Decode (fuel outSize : Nat) (src : List Nat) (prop : Nat) (fm : FinishMode) :
    Option (FRes (List Nat × Nat × Status)) :=
  match decoder2Mk prop with
  | none => none
  | some s =>
    let s := { s with decoder := { s.decoder with
      m_dic := { mem := List.replicate outSize 0, size := outSize, pos := 0 } } }
    match decoder2DecodeToDic fuel outSize src fm s with
    | .more => some .more
    | .bad e => some (.bad e)
    | .ok (_, status, s) =>
      some (.ok (s.decoder.m_dic.mem.take s.decoder.m_dic.pos, s.decoder.m_dic.pos, status))

/-! Concrete states used by the witnesses and counterexamples below. -/

/-- A zero-filled `DecoderCore`, used as the fallback of total match
extractions (never reached on the exercised paths) and as a base for
concrete witness states. -/
def defaultCore : DecoderCore := {
  m_dic := { mem := [], size := 0, pos := 0 },
  m_properties := { lc := 0, lp := 0, pb := 0, dicSize := 0 },
  m_probs := [], buf := 0, m_range := 0, m_code := 0, processedPos := 0,
  checkDicSize := 0, state := 0, rep0 := 0, rep1 := 0, rep2 := 0, rep3 := 0,
  remainLen := 0, needFlush := false, needInitState := false, tempBuf := [] }

/-- A zero-filled framer state over `defaultCore`. -/
def defaultS : Decoder2State := {
  decoder := defaultCore, packSize := 0, unpackSize := 0,
  state := .CONTROL, control := 0, needInitDic := true, needInitState := true,
  needInitProp := true }

/-- A freshly constructed decoder (`prop = 0x18`) with a 4-byte
caller-supplied dictionary installed, as the streaming front ends do. -/
def cexS0 : Decoder2State :=
  match decoder2Mk 0x18 with
  | some s =>
    { s with decoder := { s.decoder with
        m_dic := { mem := List.replicate 4 0, size := 4, pos := 0 } } }
  | none => defaultS

/-- The input of the C2 counterexample: an uncompressed no-reset chunk
header (`0x02`, two size bytes giving `unpackSize = 1`) followed by one
data byte, presented to a decoder whose dictionary-reset obligation is
still outstanding. -/
def cexInput : List Nat := [2, 0, 0, 0xAA]

/-- The framer state carried by the `BadStream` thrown on the first
counterexample call. -/
def cexS1 : Decoder2State :=
  match decoder2DecodeToDic 32 4 cexInput FinishMode.Any cexS0 with
  | .bad (some s) => s
  | _ => defaultS

/-- A decoder state sitting in the framer Error state, for the C2
witness. -/
def cexErrS : Decoder2State := { defaultS with state := .ERROR }

/-- The constructed decoder state for `prop = 40`. -/
def c7S40 : Decoder2State := (decoder2Mk 40).getD defaultS

/-- The constructed decoder state for `prop = 24` (the test property
byte `0x18`). -/
def c7S24 : Decoder2State := (decoder2Mk 24).getD defaultS

/-- The C9 test vector: one uncompressed dictionary-reset chunk carrying
the eight bytes of `test_str`, then the end-of-stream control byte. -/
def c9Input : List Nat := [0x01, 0x00, 0x07, 0x74, 0x65, 0x73, 0x74, 0x5F, 0x73, 0x74, 0x72, 0x00]

/-- The expected C9 output bytes, `test_str`. -/
def c9Output : List Nat := [0x74, 0x65, 0x73, 0x74, 0x5F, 0x73, 0x74, 0x72]

/-- A concrete PROP-state framer for the C10 witness. -/
def c10S : Decoder2State := { defaultS with state := .PROP }

/-- A concrete freshly normalized range-coder state for the C8 witness. -/
def c8D : DecoderCore := { defaultCore with m_range := 0xFFFFFFFF }

/-! ## Theorems for the specification claims -/

/-! Shared helper lemmas. -/

/-- The range register after `NORMALIZE`, as a function of the range
alone. -/
theorem coreNormalize_range (input : List Nat) (d : DecoderCore) :
    (coreNormalize input d).m_range =
      if d.m_range < kTopValue then wrap32 (d.m_range * 256) else d.m_range := by
  unfold coreNormalize
  split <;> rfl

/-- `probUp` without the (never-firing) 32-bit wraps, for in-range
probability counters. -/
theorem probUp_eq (p : Nat) (hp : p ≤ 2047) : probUp p = p + (2048 - p) / 32 := by
  unfold probUp sub32 wrap32 kBitModelTotal kNumBitModelTotalBits kNumMoveBits UINT32_LIMIT
  norm_num
  have e1 : p % 4294967296 = p := by omega
  rw [e1]
  have e2 : (2048 + (4294967296 - p)) % 4294967296 = 2048 - p := by omega
  rw [e2]
  have h2 : 32 * ((2048 - p) / 32) ≤ 2048 - p := by omega
  exact Nat.mod_eq_of_lt (by omega)

/-- `probDown` without the (never-firing) 32-bit wraps. -/
theorem probDown_eq (p : Nat) (hp : p < UINT32_LIMIT) : probDown p = p - p / 32 := by
  unfold probDown sub32 wrap32 kNumMoveBits UINT32_LIMIT
  unfold UINT32_LIMIT at hp
  norm_num
  have h2 : p / 32 ≤ p := Nat.div_le_self _ _
  have e1 : (p / 32) % 4294967296 = p / 32 := Nat.mod_eq_of_lt (by omega)
  rw [e1]
  omega

/-- Claim C1, counterexample: the claimed literal meta-state update
(`state - min(state, 3)` for `state < 4`, `state - 3` otherwise) does
not hold for every state in `[0, 12)`: the code maps states 10 and 11
through `state - 6`. -/
theorem C1_counterexample :
    ¬ (∀ st, st < 12 → litNextState st = if st < 4 then st - min st 3 else st - 3) := by
  decide

/-- Claim C1, amended: after a literal the meta-state becomes
`state - min(state, 3)` for `state < 4`, `state - 3` for
`4 ≤ state < 10`, and `state - 6` for `state ∈ {10, 11}`. -/
theorem C1_literal_state_update :
    ∀ st, st < 12 → litNextState st =
      if st < 4 then st - min st 3 else if st < 10 then st - 3 else st - 6 := by
  decide

/-- Witness for C1 at the concrete state 10. -/
theorem C1_witness :
    10 < 12 ∧ litNextState 10 =
      (if 10 < 4 then 10 - min 10 3 else if 10 < 10 then 10 - 3 else 10 - 6) :=
  ⟨by decide, C1_literal_state_update 10 (by decide)⟩

/-- Claim C2, counterexample: the first call surfaces the
unmet-dictionary-reset bad-stream error, but the framer state at the
throw is `DATA`, not `ERROR`, and the next call on the same decoder
returns `NeedsMoreInput` instead of an error. -/
theorem C2_counterexample :
    decoder2DecodeToDic 32 4 cexInput FinishMode.Any cexS0 = .bad (some cexS1) ∧
    cexS1.state = .DATA ∧
    decoder2DecodeToDic 32 4 [] FinishMode.Any cexS1 = .ok (0, .NeedsMoreInput, cexS1) := by
  refine ⟨?_, ?_, ?_⟩ <;> rfl

/-- Claim C2, amended: once the framer state is `ERROR`, every
`DecodeToDic` call surfaces a bad-stream error with the state left at
`ERROR`, regardless of the input; bad-stream errors thrown from the data
path, however, do not move the state to `ERROR` (see the
counterexample). -/
theorem C2_error_state_sticky :
    ∀ (fuel dicLimit : Nat) (src : List Nat) (fm : FinishMode) (s : Decoder2State),
      s.state = .ERROR →
      decoder2DecodeToDic (fuel + 1) dicLimit src fm s = .bad (some s) := by
  intro fuel dicLimit src fm s h
  simp [decoder2DecodeToDic, decoder2DecodeToDicLoop, h]

/-- Witness for C2 at a concrete errored decoder. -/
theorem C2_witness :
    cexErrS.state = .ERROR ∧
    decoder2DecodeToDic 1 4 [] FinishMode.Any cexErrS = .bad (some cexErrS) :=
  ⟨rfl, C2_error_state_sticky 0 4 [] FinishMode.Any cexErrS rfl⟩

/-- Claim C9: decoding the LZMA2 stream
`[01, 00, 07, t, e, s, t, _, s, t, r, 00]` with property byte `0x18`
through the one-shot `Lzma2Decode` produces exactly the eight bytes of
`test_str` and status `FinishedWithMark`. -/
theorem C9_test_str :
    lzma2Decode 64 1024 c9Input 0x18 FinishMode.End =
      some (.ok (c9Output, 8, .FinishedWithMark)) := by
  decide

/-- Claim C10: a property byte `b < 225` whose decoded `lc + lp` exceeds
4 drives the framer to `ERROR`, but only after `pb` has already been
overwritten with `(b / 9) / 5`; `lc` and `lp` keep their previous
values. -/
theorem C10_prop_rejection_mutates_pb :
    ∀ (s : Decoder2State) (b : Nat), s.state = .PROP → b < 225 →
      4 < b % 9 + (b / 9) % 5 →
      updateState b s = { s with state := ELzma2State.ERROR, decoder := { s.decoder with m_properties := { s.decoder.m_properties with pb := b / 9 / 5 } } } := by
  intro s b h1 h2 h3
  simp only [updateState, h1]
  simp only [reduceCtorEq, if_false]
  split_ifs <;> first | rfl | (exfalso; simp only [LC_PLUS_LP_MAX, not_true] at *; try omega)

/-- Witness for C10 at the concrete property byte 5 (`lc = 5`,
`lp = 0`). -/
theorem C10_witness :
    c10S.state = .PROP ∧ 5 < 225 ∧ 4 < 5 % 9 + (5 / 9) % 5 ∧
    updateState 5 c10S = { c10S with state := ELzma2State.ERROR, decoder := { c10S.decoder with m_properties := { c10S.decoder.m_properties with pb := 5 / 9 / 5 } } } :=
  ⟨rfl, by decide, by decide, C10_prop_rejection_mutates_pb c10S 5 rfl (by decide) (by decide)⟩

/-- Claim C4: a decoded simple-match distance is validated before the
copy — invalid exactly when it reaches `processedPos` while
`checkDicSize == 0` and when it reaches the dictionary size afterwards
(under the invariant `checkDicSize ∈ {0, dicSize}`); a rep operation
with `checkDicSize == 0` and `processedPos == 0` raises a bad-stream
error; and `simpleMatchFinish` (the match path of `DecodeReal`) raises
`BadStream` whenever the validation fails, before any copy. -/
theorem C4_distance_validation :
    (∀ cds pp dist dsz : Nat, cds = 0 ∨ cds = dsz →
      (distanceIsValid cds pp dist = false ↔
        (if cds = 0 then pp ≤ dist else dsz ≤ dist))) ∧
    (∀ cds pp : Nat, repIntoEmptyDic cds pp = true ↔ cds = 0 ∧ pp = 0) ∧
    (∀ (limit len dist : Nat) (d : DecoderCore),
      distanceIsValid d.checkDicSize d.processedPos dist = false →
      simpleMatchFinish limit len dist d = .bad) := by
  refine ⟨?_, ?_, ?_⟩
  · intro cds pp dist dsz h
    unfold distanceIsValid
    rcases h with h | h
    · subst h
      simp
    · by_cases h0 : cds = 0
      · subst h0
        simp
      · rw [if_neg h0, if_neg h0]
        subst h
        simp
  · intro cds pp
    unfold repIntoEmptyDic
    simp
  · intro limit len dist d h
    unfold simpleMatchFinish
    rw [show ({ d with rep3 := d.rep2, rep2 := d.rep1, rep1 := d.rep0, rep0 := wrap32 (dist + 1) } : DecoderCore).checkDicSize = d.checkDicSize from rfl]
    simp [h]

/-- Witness for C4 at concrete counters. -/
theorem C4_witness :
    (distanceIsValid 0 5 7 = false ↔ (if (0 : Nat) = 0 then 5 ≤ 7 else 9 ≤ 7)) ∧
    (repIntoEmptyDic 0 0 = true ↔ (0 : Nat) = 0 ∧ (0 : Nat) = 0) ∧
    simpleMatchFinish 4 2 7 defaultCore = .bad :=
  ⟨C4_distance_validation.1 0 5 7 9 (Or.inl rfl), C4_distance_validation.2.1 0 0,
   C4_distance_validation.2.2 4 2 7 defaultCore (by decide)⟩

/-- Claim C5: one probability-coded bit decode computes
`bound = (range >> 11) * prob` and branches on `code < bound` exactly as
the specification states, with no 32-bit wrap for in-range probability
counters. -/
theorem C5_decode_bit :
    ∀ range code prob : Nat, range < UINT32_LIMIT → code < UINT32_LIMIT → prob ≤ 2047 →
      decodeBit range code prob = decodeBitSpec range code prob := by
  intro r c p hr hc hp
  have e2 : (2 : Nat) ^ kNumBitModelTotalBits = 2048 := by norm_num [kNumBitModelTotalBits]
  have hshift : r >>> 11 = r / 2048 := by
    rw [Nat.shiftRight_eq_div_pow]
  have hble : r / 2048 * p ≤ r := by
    calc r / 2048 * p ≤ r / 2048 * 2048 := Nat.mul_le_mul_left _ (by omega)
    _ ≤ r := Nat.div_mul_le_self _ _
  have hbound : rcBound r p = r >>> 11 * p := by
    unfold rcBound wrap32
    rw [e2, hshift]
    exact Nat.mod_eq_of_lt (by unfold UINT32_LIMIT at hr ⊢; omega)
  unfold decodeBit decodeBitSpec
  rw [hbound, hshift]
  by_cases h : c < r / 2048 * p
  · simp only [h, if_true, if_pos h]
    have : probUp p = p + (2048 - p) >>> 5 := by
      rw [Nat.shiftRight_eq_div_pow]
      norm_num
      exact probUp_eq p hp
    rw [this]
  · simp only [h, if_false, if_neg h]
    have h1 : sub32 r (r / 2048 * p) = r - r / 2048 * p := by
      unfold sub32 wrap32 UINT32_LIMIT
      unfold UINT32_LIMIT at hr
      omega
    have h2 : sub32 c (r / 2048 * p) = c - r / 2048 * p := by
      unfold sub32 wrap32 UINT32_LIMIT
      unfold UINT32_LIMIT at hc
      omega
    have h3 : probDown p = p - p >>> 5 := by
      rw [Nat.shiftRight_eq_div_pow]
      norm_num
      exact probDown_eq p (by unfold UINT32_LIMIT; omega)
    rw [h1, h2, h3]

/-- Witness for C5 at the freshly initialized range-coder state. -/
theorem C5_witness :
    (0xFFFFFFFF : Nat) < UINT32_LIMIT ∧ (123 : Nat) < UINT32_LIMIT ∧ (1024 : Nat) ≤ 2047 ∧
    decodeBit 0xFFFFFFFF 123 1024 = decodeBitSpec 0xFFFFFFFF 123 1024 :=
  ⟨by decide, by decide, by decide,
   C5_decode_bit 0xFFFFFFFF 123 1024 (by decide) (by decide) (by decide)⟩

/-- Claim C7: decoder construction fails exactly for `prop > 40`;
`prop == 40` selects the full 32-bit dictionary size; every `prop < 40`
selects `(2 | (prop & 1)) << (prop / 2 + 11)`. -/
theorem C7_create :
    ∀ prop : Nat,
      (decoder2Mk prop = none ↔ 40 < prop) ∧
      (prop = 40 → ∀ s, decoder2Mk prop = some s →
        s.decoder.m_properties.dicSize = 0xFFFFFFFF) ∧
      (prop < 40 → ∀ s, decoder2Mk prop = some s →
        s.decoder.m_properties.dicSize = (2 ||| (prop &&& 1)) <<< (prop / 2 + 11)) := by
  intro prop
  refine ⟨?_, ?_, ?_⟩
  · unfold decoder2Mk
    split_ifs with h
    · simp [h]
    · simp [h]
  · intro h40 s hs
    subst h40
    unfold decoder2Mk at hs
    rw [if_neg (by omega)] at hs
    simp only [Option.some.injEq] at hs
    subst hs
    rfl
  · intro hlt s hs
    unfold decoder2Mk at hs
    rw [if_neg (by omega)] at hs
    simp only [Option.some.injEq] at hs
    subst hs
    show (if prop = 40 then 0xFFFFFFFF else dicSizeFromProp prop) = _
    rw [if_neg (by omega)]
    unfold dicSizeFromProp wrap32
    have hand : prop &&& 1 = 0 ∨ prop &&& 1 = 1 := by
      rw [Nat.and_one_is_mod]
      exact Nat.mod_two_eq_zero_or_one prop
    have hsmall : (2 ||| (prop &&& 1)) <<< (prop / 2 + 11) < UINT32_LIMIT := by
      have hor : (2 ||| (prop &&& 1)) ≤ 3 := by
        rcases hand with h | h <;> rw [h] <;> decide
      rw [Nat.shiftLeft_eq]
      have hexp : (2 : Nat) ^ (prop / 2 + 11) ≤ 2 ^ 30 := by
        apply Nat.pow_le_pow_right (by norm_num)
        omega
      calc (2 ||| (prop &&& 1)) * 2 ^ (prop / 2 + 11) ≤ 3 * 2 ^ 30 :=
        Nat.mul_le_mul hor hexp
      _ < UINT32_LIMIT := by norm_num [UINT32_LIMIT]
    exact Nat.mod_eq_of_lt hsmall

/-- Witness for C7 at `prop = 41`, `prop = 40` and `prop = 24`. -/
theorem C7_witness :
    decoder2Mk 41 = none ∧
    c7S40.decoder.m_properties.dicSize = 0xFFFFFFFF ∧
    c7S24.decoder.m_properties.dicSize = 16777216 := by
  refine ⟨(C7_create 41).1.mpr (by norm_num), ?_, ?_⟩
  · exact (C7_create 40).2.1 rfl c7S40 rfl
  · have h := (C7_create 24).2.2 (by norm_num) c7S24 rfl
    rw [h]
    decide

/-- Claim C8: the range-register invariant `range ≥ 2^24` immediately
after normalization is inductive: starting from a normalized range (and
a probability counter in the reachable interval `[31, 2017]`), the
range after the next normalization — following `UPDATE_0`
(`range = bound`), `UPDATE_1` (`range -= bound`) or a direct-bit halving
— is again at least `2^24`; the probability updates stay inside
`[31, 2017]`; and the initial values (`range = 0xFFFFFFFF` from
`InitRc`, all counters `1024` from `InitStateReal`) satisfy both. -/
theorem C8_range_invariant :
    ∀ (input : List Nat) (d : DecoderCore) (prob : Nat),
      d.m_range < UINT32_LIMIT → kTopValue ≤ d.m_range → 31 ≤ prob → prob ≤ 2017 →
      kTopValue ≤ (coreNormalize input { d with m_range := rcBound d.m_range prob }).m_range ∧
      kTopValue ≤ (coreNormalize input { d with m_range := sub32 d.m_range (rcBound d.m_range prob) }).m_range ∧
      kTopValue ≤ (coreNormalize input { d with m_range := d.m_range / 2 }).m_range ∧
      31 ≤ probUp prob ∧ probUp prob ≤ 2017 ∧ 31 ≤ probDown prob ∧ probDown prob ≤ 2017 ∧
      kTopValue ≤ (0xFFFFFFFF : Nat) ∧ 31 ≤ kBitModelTotal / 2 ∧ kBitModelTotal / 2 ≤ 2017 := by
  intro input d p h32 h24 hp1 hp2
  simp only [UINT32_LIMIT] at h32
  simp only [kTopValue, kNumTopBits] at h24
  norm_num at h24
  set r := d.m_range with hrdef
  have hq13 : 8192 ≤ r / 2048 := by omega
  have hqr : r / 2048 * 2048 ≤ r := Nat.div_mul_le_self _ _
  have hb31 : r / 2048 * 31 ≤ r / 2048 * p := Nat.mul_le_mul_left _ hp1
  have hb2017 : r / 2048 * p ≤ r / 2048 * 2017 := Nat.mul_le_mul_left _ hp2
  have hb2048 : r / 2048 * p ≤ r / 2048 * 2048 := Nat.mul_le_mul_left _ (by omega)
  have hbr : r / 2048 * p ≤ r := le_trans hb2048 hqr
  have hup := probUp_eq p (by omega)
  have hdown := probDown_eq p (by simp only [UINT32_LIMIT]; omega)
  have hd32 : 32 * ((2048 - p) / 32) ≤ 2048 - p := by omega
  have hp32 : 32 * (p / 32) ≤ p := by omega
  refine ⟨?_, ?_, ?_, ?_, ?_, ?_, ?_, ?_, ?_, ?_⟩
  · rw [coreNormalize_range]
    simp only [rcBound, wrap32, sub32, kTopValue, kNumTopBits, kNumBitModelTotalBits, UINT32_LIMIT]
    norm_num
    split <;> omega
  · rw [coreNormalize_range]
    simp only [rcBound, wrap32, sub32, kTopValue, kNumTopBits, kNumBitModelTotalBits, UINT32_LIMIT]
    norm_num
    split <;> omega
  · rw [coreNormalize_range]
    simp only [wrap32, kTopValue, kNumTopBits, UINT32_LIMIT]
    norm_num
    split <;> omega
  · rw [hup]; omega
  · rw [hup]; omega
  · rw [hdown]; omega
  · rw [hdown]; omega
  · norm_num [kTopValue, kNumTopBits]
  · norm_num [kBitModelTotal, kNumBitModelTotalBits]
  · norm_num [kBitModelTotal, kNumBitModelTotalBits]

/-- Witness for C8 at the freshly initialized decoder state and the
midpoint probability. -/
theorem C8_witness :
    c8D.m_range < UINT32_LIMIT ∧ kTopValue ≤ c8D.m_range ∧
    (31 : Nat) ≤ 1024 ∧ (1024 : Nat) ≤ 2017 ∧
    kTopValue ≤ (coreNormalize [] { c8D with m_range := rcBound c8D.m_range 1024 }).m_range :=
  ⟨by decide, by decide, by decide, by decide,
   (C8_range_invariant [] c8D 1024 (by decide) (by decide) (by decide) (by decide)).1⟩

end LzmaCpp
